import Mathlib

/-!
Verification of the task-management backend (projects / tasks / sprints /
activity log).

The definitions below are a shallow embedding of the TypeScript sources:

* `src/models/task.ts` — the task schema's five `pre('save')` hooks
  (story-point defaults, board-column status validation, sprint counter
  update, hierarchy rules, sprint pull on clear), the document
  `pre('deleteOne')` hook, and the `moveToSprint` static.
* `src/models/sprint.ts` — the sprint schema's date check and task-count
  recomputation hooks.
* `src/models/project.ts` (unnamed part_001) — board columns.
* `src/controllers/project.ts` — `removeBoardColumn`.
* `src/controllers/sprint.ts` — `addTasksToSprint`.
* task controller (unnamed part_002) — `logActivity`, `createTask`,
  `updateTask`, `deleteTask`, `getBurndownData`.

Mongoose semantics kept by the embedding, because the claims depend on
them: document middleware (`pre('save')`, `pre('deleteOne', {document:
true})`) runs only on `Document.save()` / `doc.deleteOne()`.
`Model.findByIdAndUpdate`, `Model.updateMany` and `Model.findByIdAndDelete`
are plain store writes that do not fire that middleware, and
`runValidators` only applies schema path validators (enum membership),
none of which constrain `status` or `parentTask`.  Inside a `pre('save')`
hook the document's new field values are not yet persisted, so queries
(`countDocuments`) observe the old stored values.

Object ids are `Nat`, dates and timestamps are `Nat` day numbers.
Fields irrelevant to every claim (watchers, dueDate, timeSpent, reporter,
avatars, emails) are omitted from the record types.
-/

namespace Backend

/-- A board column of a project (`IBoardColumn`): `_id`, `name`, `order`. -/
structure BoardColumn where
  id : Nat
  name : String
  order : Nat
deriving DecidableEq

/-- A project (`IProject`), restricted to the fields the claims touch.
`workflow` mirrors `projectDoc.workflow?.statuses` read by `createTask`;
the Project schema declares no such path, so on stored documents it is
always `none` (the field is kept so `createTask` can be translated
verbatim). -/
structure Project where
  id : Nat
  boardColumns : List BoardColumn
  startDate : Nat
  endDate : Nat
  workflow : Option (List String) := none
deriving DecidableEq

/-- A sprint (`ISprint`): task-reference set and the two derived counters. -/
structure Sprint where
  id : Nat
  project : Nat
  startDate : Nat
  endDate : Nat
  status : String
  tasks : List Nat
  completedTasks : Nat
  totalTasks : Nat
deriving DecidableEq

/-- A task (`ITask`), restricted to the fields the claims touch. -/
structure Task where
  id : Nat
  name : String
  description : String
  priority : String
  type : String
  status : String
  project : Nat
  sprint : Option Nat
  assignee : Nat
  storyPoints : Nat
  completedAt : Option Nat
  parentTask : Option Nat
deriving DecidableEq

/-- One activity entry (the `ActivityLog` interface of the task
controller). -/
structure Activity where
  user : Nat
  action : String
  taskId : Nat
  project : Nat
  details : Option String
  fieldChanged : Option String
  oldValue : Option String
  newValue : Option String
  timestamp : Nat
deriving DecidableEq

/-- The document store: one collection per model, plus the user ids that
exist (for `createTask`'s assignee-existence check). -/
structure World where
  projects : List Project
  sprints : List Sprint
  tasks : List Task
  users : List Nat
  activities : List Activity
deriving DecidableEq

/-- `Task.findById`. -/
def findTask (w : World) (tid : Nat) : Option Task :=
  w.tasks.find? (fun t => t.id == tid)

/-- `Sprint.findById`. -/
def findSprint (w : World) (sid : Nat) : Option Sprint :=
  w.sprints.find? (fun s => s.id == sid)

/-- `Project.findById`. -/
def findProject (w : World) (pid : Nat) : Option Project :=
  w.projects.find? (fun p => p.id == pid)

/-- Writing the task document at the end of a successful `save()`:
insert for a new document, replace-by-id otherwise. -/
def persistTask (w : World) (t : Task) (isNew : Bool) : World :=
  if isNew then { w with tasks := w.tasks ++ [t] }
  else { w with tasks := w.tasks.map (fun u => if u.id == t.id then t else u) }

/-- `Sprint.updateMany({ tasks: id }, { $pull: { tasks: id } })`: a direct
store write — sprint save hooks do not run, so the counters are left as
they are. -/
def pullTaskFromAllSprints (w : World) (tid : Nat) : World :=
  { w with sprints := w.sprints.map (fun s => { s with tasks := s.tasks.filter (fun x => x != tid) }) }

/-- The status strings the code treats as terminal, task.ts/sprint.ts:
`status: { $in: ['Done', 'Completed'] }`. -/
def isDoneStatus (s : String) : Bool :=
  s == "Done" || s == "Completed"

/-- `Task.countDocuments({ _id: { $in: taskIds }, status: { $in: ['Done',
'Completed'] } })` evaluated against the store. -/
def countCompletedIn (w : World) (taskIds : List Nat) : Nat :=
  (w.tasks.filter (fun u => taskIds.contains u.id && isDoneStatus u.status)).length

/-- task.ts hook 1 (line 316): default story points by type when unset. -/
def defaultStoryPoints (ttype : String) : Nat :=
  if ttype == "epic" then 3
  else if ttype == "task" then 2
  else if ttype == "subtask" then 1
  else if ttype == "story" then 4
  else if ttype == "bug" then 5
  else 0

def applyStoryPointsHook (t : Task) : Task :=
  if t.storyPoints == 0 then { t with storyPoints := defaultStoryPoints t.type } else t

/-- task.ts hook 2 (line 341): when the document is new or its status was
modified, the status must equal the name of one of the owning project's
board columns. Returns the error message, if any. -/
def statusValidHook (w : World) (t : Task) (isNew modStatus : Bool) : Option String :=
  if isNew || modStatus then
    match findProject w t.project with
    | none => some "Project not found"
    | some project =>
      if project.boardColumns.any (fun column => column.name == t.status) then none
      else some "Invalid status for this project. Must be one of the project board columns."
  else none

/-- task.ts hook 3 (line 364): when status or sprint was modified and the
task has a sprint, recompute that sprint's `completedTasks` (a direct
`findByIdAndUpdate`, so `totalTasks` is untouched and no sprint save hooks
run) and maintain this document's `completedAt`.  The count is taken over
the store, where this task's new status is not yet visible. -/
def sprintStatsHook (w : World) (t : Task) (modStatus modSprint : Bool) (now : Nat) :
    World × Task :=
  match t.sprint with
  | none => (w, t)
  | some sid =>
    if modStatus || modSprint then
      match findSprint w sid with
      | none => (w, t)
      | some sprint =>
        let isCompleted := isDoneStatus t.status
        let completedCount := countCompletedIn w sprint.tasks
        let sprints' := w.sprints.map
          (fun s => if s.id == sid then { s with completedTasks := completedCount } else s)
        let w' := { w with sprints := sprints' }
        let t' :=
          if isCompleted && t.completedAt.isNone then { t with completedAt := some now }
          else if !isCompleted && t.completedAt.isSome then { t with completedAt := none }
          else t
        (w', t')
    else (w, t)

/-- The first step of task.ts hook 4: `if (this.type === 'epic' &&
this.parentTask !== null) this.parentTask = null`. -/
def epicNormalize (t : Task) : Task :=
  if t.type == "epic" && t.parentTask.isSome then { t with parentTask := none } else t

/-- task.ts hook 4 (line 403): hierarchy rules.  Epics get their parent
force-cleared; a `task` with a parent requires the parent to exist with
type `epic`; a `subtask` requires a parent that exists with type `task`.
(The hook checks no other types.) -/
def hierarchyHook (w : World) (t : Task) : Except String Task :=
  let t1 := epicNormalize t
  if t1.type == "task" && t1.parentTask.isSome then
    match t1.parentTask with
    | none => .ok t1
    | some pid =>
      match findTask w pid with
      | none => .error "Tasks can only have epics as parents"
      | some parentTask =>
        if parentTask.type == "epic" then .ok t1
        else .error "Tasks can only have epics as parents"
  else if t1.type == "subtask" then
    match t1.parentTask with
    | none => .error "Subtasks must have a parent task"
    | some pid =>
      match findTask w pid with
      | none => .error "Subtasks can only have tasks as parents"
      | some parentTask =>
        if parentTask.type == "task" then .ok t1
        else .error "Subtasks can only have tasks as parents"
  else .ok t1

/-- task.ts hook 5 (line 445): when the sprint field was cleared, pull the
task from every sprint's task set (`updateMany`, counters untouched). -/
def sprintClearHook (w : World) (t : Task) (modSprint : Bool) : World :=
  if modSprint && t.sprint.isNone then pullTaskFromAllSprints w t.id else w

/-- `task.save()`: the five pre-save hooks in registration order, then the
document write.  Returns the resulting store and the error, if one of the
hooks rejected the save; side effects of hooks that ran before a failing
hook are kept, as in the source. -/
def saveTask (w : World) (t : Task) (isNew modStatus modSprint : Bool) (now : Nat) :
    World × Option String :=
  let t1 := applyStoryPointsHook t
  match statusValidHook w t1 isNew modStatus with
  | some e => (w, some e)
  | none =>
    let ws := sprintStatsHook w t1 modStatus modSprint now
    match hierarchyHook ws.1 ws.2 with
    | .error e => (ws.1, some e)
    | .ok t3 =>
      let w2 := sprintClearHook ws.1 t3 modSprint
      (persistTask w2 t3 isNew, none)

/-- `sprint.save()` (sprint.ts): start date strictly before end date, then,
when the task set was modified, recompute `totalTasks` and
`completedTasks` from the store. -/
def saveSprint (w : World) (s : Sprint) (isNew modTasks : Bool) : World × Option String :=
  if s.startDate >= s.endDate then
    (w, some "Sprint start date must be before end date")
  else
    let s1 :=
      if modTasks then
        { s with totalTasks := s.tasks.length, completedTasks := countCompletedIn w s.tasks }
      else s
    if isNew then ({ w with sprints := w.sprints ++ [s1] }, none)
    else ({ w with sprints := w.sprints.map (fun u => if u.id == s1.id then s1 else u) }, none)

/-- task.ts `TaskSchema.statics.moveToSprint(taskId, sprintId)` (line 478).
With a sprint id: not-found checks, the cross-project check, then `$pull`
from every other sprint, `$addToSet` on the target (both direct writes,
no sprint hooks), then `task.save()` with the new sprint reference.  With
`none`: `$pull` everywhere and save with cleared reference.  `now` is the
clock used by the save hooks. -/
def moveToSprint (w : World) (taskId : Nat) (sprintId : Option Nat) (now : Nat) :
    World × Option String :=
  match findTask w taskId with
  | none => (w, some "Task not found")
  | some task =>
    match sprintId with
    | some sid =>
      match findSprint w sid with
      | none => (w, some "Sprint not found")
      | some sprint =>
        if task.project != sprint.project then
          (w, some "Task and sprint must belong to the same project")
        else
          let pulled := w.sprints.map
            (fun s => if s.id != sid then { s with tasks := s.tasks.filter (fun x => x != taskId) } else s)
          let added := pulled.map
            (fun s => if s.id == sid && !(s.tasks.contains taskId) then { s with tasks := s.tasks ++ [taskId] } else s)
          let w2 := { w with sprints := added }
          let task' := { task with sprint := some sid }
          saveTask w2 task' false false (task.sprint != some sid) now
    | none =>
      let w1 := pullTaskFromAllSprints w taskId
      let task' := { task with sprint := none }
      saveTask w1 task' false false (task.sprint != (none : Option Nat)) now

/-- sprint controller `addTasksToSprint` (src/controllers/sprint.ts line
181): after the checks, `Sprint.findByIdAndUpdate(sprintId, { $addToSet:
{ tasks: { $each: taskIds } } })` — a direct write: the sprint's save
hooks do not run, so `totalTasks`/`completedTasks` are not recomputed. -/
def addTasksToSprint (w : World) (sprintId : Nat) (taskIds : List Nat) :
    World × Option String :=
  if taskIds.isEmpty then (w, some "Please provide an array of task IDs")
  else
    match findSprint w sprintId with
    | none => (w, some "Sprint not found")
    | some sprint =>
      let tasks := w.tasks.filter (fun t => taskIds.contains t.id && t.project == sprint.project)
      if tasks.length != taskIds.length then
        (w, some "Some tasks were not found or do not belong to the project")
      else
        let addAll := fun (acc : List Nat) (tid : Nat) =>
          if acc.contains tid then acc else acc ++ [tid]
        let sprints' := w.sprints.map
          (fun s => if s.id == sprintId then { s with tasks := taskIds.foldl addAll s.tasks } else s)
        ({ w with sprints := sprints' }, none)

/-- Outcome of the activity store write (`activity.save()`).  The Activity
model itself is not among the sources; only the boundary matters to the
claims: the write either succeeds or raises, and `logActivity` catches. -/
inductive WriteOutcome
  | ok
  | failed
deriving DecidableEq

/-- task controller `logActivity` (part_002 line 36): builds the entry,
awaits `activity.save()`, returns `true`; any storage error is caught,
logged to the console, and `false` is returned — nothing propagates. -/
def logActivity (acts : List Activity) (entry : Activity) (outcome : WriteOutcome) :
    List Activity × Bool :=
  match outcome with
  | .ok => (acts ++ [entry], true)
  | .failed => (acts, false)

/-- The body of a `createTask` request (part_002 line 147); `none` stands
for a missing/absent field of `req.body`. -/
structure CreateTaskReq where
  name : Option String
  description : Option String
  type : Option String
  status : Option String
  priority : Option String
  storyPoints : Option Nat
  assignee : Option Nat
  parentTask : Option Nat
  project : Option Nat
deriving DecidableEq

/-- task controller `createTask` (part_002 line 147).  Required-field
check; project lookup; status defaulting (an unknown status is silently
replaced by the project's first column name, or "To Do" when there are no
columns; the `workflow` branch is dead on stored documents but kept);
assignee existence; parent checks (subtask needs a `task` parent,
task/story need an `epic` parent, an epic with a parent is rejected);
then `newTask.save()` runs the five schema hooks, and on success an
activity entry is recorded.  `newId` stands for the generated ObjectId;
id-format validation (`validateObjectId`) is identically true on `Nat`
ids and is omitted. -/
def createTask (w : World) (req : CreateTaskReq) (newId : Nat) (now : Nat) :
    World × Option String :=
  match req.name, req.description, req.project, req.assignee with
  | some nm, some descr, some projectId, some assignee =>
    (match findProject w projectId with
     | none => (w, some "Project not found")
     | some projectDoc =>
       let defaultStatus := "To Do"
       let taskStatus0 := req.status.getD defaultStatus
       let taskStatus :=
         match projectDoc.workflow with
         | some statuses =>
           if statuses.contains taskStatus0 then taskStatus0
           else statuses.headD defaultStatus
         | none =>
           if projectDoc.boardColumns.any (fun column => column.name == taskStatus0) then taskStatus0
           else
             match projectDoc.boardColumns.head? with
             | some column => column.name
             | none => defaultStatus
       if !(w.users.contains assignee) then (w, some "Assignee not found")
       else
         let parentCheck : Option String :=
           match req.parentTask with
           | some pid =>
             (match findTask w pid with
              | none => some "Parent task not found"
              | some parentTaskDoc =>
                if req.type == some "subtask" && parentTaskDoc.type != "task" then
                  some "Subtasks must have tasks as parents"
                else if (req.type == some "task" || req.type == some "story")
                    && parentTaskDoc.type != "epic" then
                  some "Tasks and stories must have epics as parents"
                else if req.type == some "epic" then
                  some "Epics cannot have parent tasks"
                else none)
           | none =>
             if req.type == some "subtask" then some "Subtasks must have a parent task"
             else none
         match parentCheck with
         | some e => (w, some e)
         | none =>
           let newTask : Task :=
             { id := newId
               name := nm
               description := descr
               type := req.type.getD "task"
               status := taskStatus
               priority := req.priority.getD "medium"
               project := projectId
               sprint := none
               assignee := assignee
               storyPoints := req.storyPoints.getD 0
               completedAt := none
               parentTask := req.parentTask }
           match saveTask w newTask true true false now with
           | (w1, some e) => (w1, some e)
           | (w1, none) =>
             let entry : Activity :=
               { user := assignee, action := "created", taskId := newId
                 project := projectDoc.id, details := none, fieldChanged := none
                 oldValue := none, newValue := none, timestamp := now }
             ({ w1 with activities := w1.activities ++ [entry] }, none))
  | _, _, _, _ => (w, some "Name, description, project, and assignee are required")

/-- The `$set` payload of an `updateTask` request, restricted to the
fields the claims exercise.  `parentTask := some none` clears the
parent. -/
structure UpdatePatch where
  status : Option String
  parentTask : Option (Option Nat)
deriving DecidableEq

/-- Applying the patch to the stored document — what
`Task.findByIdAndUpdate(id, { $set: updateData })` writes. -/
def applyPatch (t : Task) (patch : UpdatePatch) : Task :=
  { t with
    status := patch.status.getD t.status
    parentTask := patch.parentTask.getD t.parentTask }

/-- task controller `updateTask` (part_002 line 303).  Looks the task up,
resolves the acting user (falling back to the assignee), then writes the
patch with `findByIdAndUpdate` — a direct store update: none of the
task's `pre('save')` hooks run and `runValidators` enforces no constraint
on `status` or `parentTask` — and finally logs activity entries for the
changed fields, best-effort.  The embedding records the status-change
entry (action `changed status`); entries for the other patched fields
are elided, as no claim observes them. -/
def updateTaskCtrl (w : World) (tid : Nat) (patch : UpdatePatch) (userId : Option Nat)
    (now : Nat) (outcome : WriteOutcome) : World × Option String :=
  match findTask w tid with
  | none => (w, some "Task not found")
  | some existingTask =>
    let actorId := userId.getD existingTask.assignee
    let updated := applyPatch existingTask patch
    let tasks' := w.tasks.map (fun u => if u.id == tid then updated else u)
    let w1 := { w with tasks := tasks' }
    let statusEntries : List Activity :=
      match patch.status with
      | some s =>
        if s != existingTask.status then
          [{ user := actorId, action := "changed status", taskId := tid
             project := existingTask.project, details := none
             fieldChanged := some "status", oldValue := some existingTask.status
             newValue := some s, timestamp := now }]
        else []
      | none => []
    let acts := statusEntries.foldl (fun a e => (logActivity a e outcome).1) w1.activities
    ({ w1 with activities := acts }, none)

/-- task controller `deleteTask` (part_002 line 413).  Rejects while any
task references the target as parent; otherwise deletes with
`Task.findByIdAndDelete` — which fires no document middleware, in
particular not the `pre('deleteOne', { document: true })` sprint-pull
hook — and then logs, best-effort. -/
def deleteTask (w : World) (tid : Nat) (userId : Nat) (outcome : WriteOutcome)
    (now : Nat) : World × Option String :=
  match findTask w tid with
  | none => (w, some "Task not found")
  | some task =>
    if w.tasks.any (fun u => u.parentTask == some tid) then
      (w, some "Cannot delete a task that has child tasks. Delete children first.")
    else
      let w1 := { w with tasks := w.tasks.filter (fun u => u.id != tid) }
      let entry : Activity :=
        { user := userId, action := "deleted", taskId := tid, project := task.project
          details := none, fieldChanged := none, oldValue := none, newValue := none
          timestamp := now }
      let acts := (logActivity w1.activities entry outcome).1
      ({ w1 with activities := acts }, none)

/-- task.ts `pre('deleteOne', { document: true, query: false })` hook
(line 463) followed by the document removal: the path `doc.deleteOne()`
would take — pull the task from every sprint's task set, then delete.
The `deleteTask` controller never goes through this path. -/
def taskDocDeleteOne (w : World) (tid : Nat) : World :=
  let w1 := pullTaskFromAllSprints w tid
  { w1 with tasks := w1.tasks.filter (fun u => u.id != tid) }

/-- project controller `removeBoardColumn`: `findIndex` over the columns
(the first column whose `_id` matches). -/
def findColumnIndex (cols : List BoardColumn) (cid : Nat) : Option Nat :=
  match cols with
  | [] => none
  | c :: rest =>
    if c.id == cid then some 0
    else (findColumnIndex rest cid).map (fun i => i + 1)

/-- project controller `removeBoardColumn`: the renumbering map
`boardColumns.map((col, idx) => ({ ...col, order: idx }))`, with `start`
the index of the first element. -/
def reindexColumns (cols : List BoardColumn) (start : Nat) : List BoardColumn :=
  match cols with
  | [] => []
  | c :: rest => { c with order := start } :: reindexColumns rest (start + 1)

/-- project controller `removeBoardColumn` (src/controllers/project.ts
line 223), on the column list: 404 when no column has the id, otherwise
splice the column out and renumber the remainder contiguously from 0. -/
def removeBoardColumn (cols : List BoardColumn) (cid : Nat) :
    Except String (List BoardColumn) :=
  match findColumnIndex cols cid with
  | none => .error "Column not found"
  | some columnIndex => .ok (reindexColumns (cols.eraseIdx columnIndex) 0)

/-- Story points, summed over the project's tasks that
`getBurndownData` counts as completed on day `d`: status exactly `Done`
with a completion date equal to `d` (the controller's `pointsByDate`
grouping). -/
def donePointsOn (w : World) (projectId : Nat) (d : Nat) : Int :=
  ((w.tasks.filter
      (fun t => t.project == projectId && t.status == "Done" && t.completedAt == some d)).map
    (fun t => (t.storyPoints : Int))).sum

/-- One step per day of the burndown `while (currentDate <= endDate)`
loop: subtract the points completed that day from the running remainder
and move to the next day.  `n` is the number of iterations left — the
loop body runs once for every day `currentDate` with
`currentDate ≤ endDate`, i.e. `endDate + 1 - startDate` times. -/
def burndownGo (n : Nat) (d : Nat) (remaining : Int) (pts : Nat → Int) : List (Nat × Int) :=
  match n with
  | 0 => []
  | n + 1 =>
    let r := remaining - pts d
    (d, r) :: burndownGo n (d + 1) r pts

/-- The burndown loop from `d` while `currentDate ≤ e`. -/
def burndownLoop (d e : Nat) (remaining : Int) (pts : Nat → Int) : List (Nat × Int) :=
  burndownGo (e + 1 - d) d remaining pts

/-- task controller `getBurndownData` (part_002 line 825): total story
points over all project tasks, then the day series from the project's
start date to its end date. -/
def getBurndownData (w : World) (projectId : Nat) :
    Except String (Int × List (Nat × Int)) :=
  match findProject w projectId with
  | none => .error "Project not found"
  | some project =>
    let allTasks := w.tasks.filter (fun t => t.project == projectId)
    let totalPoints : Int := (allTasks.map (fun t => (t.storyPoints : Int))).sum
    .ok (totalPoints,
      burndownLoop project.startDate project.endDate totalPoints (donePointsOn w projectId))

/-- Written from the words of claim C7, not from the source: the
remaining points on day `d` are the total minus the points of every task
completed on or before `d`. -/
def claimRemainingAt (w : World) (projectId : Nat) (total : Int) (d : Nat) : Int :=
  total -
    ((w.tasks.filter
        (fun t => t.project == projectId && t.status == "Done"
          && (t.completedAt.getD (d + 1)) ≤ d)).map
      (fun t => (t.storyPoints : Int))).sum

/-- The (name, project) pair covered by the unique compound index
`TaskSchema.index({ name: 1, project: 1 }, { unique: true })`
(task.ts line 312). -/
def taskKey (t : Task) : String × Nat :=
  (t.name, t.project)

/-- Modelled from the spec: the document store's enforcement of the unique
compound index on (name, project) declared in task.ts line 312 — the
enforcement itself lives in MongoDB, not in the repository's code.  An
insert whose (name, project) pair equals a stored task's fails with a
duplicate-key error; otherwise the document is appended. -/
def insertTaskUnique (ts : List Task) (t : Task) : Except String (List Task) :=
  if ts.any (fun u => u.name == t.name && u.project == t.project) then
    .error "E11000 duplicate key error"
  else .ok (ts ++ [t])

/-- Modelled from the spec: index enforcement on an update that rewrites a
task's (name, project) pair — it fails when another stored task (a
different id) already holds the new pair. -/
def updateTaskKeyUnique (ts : List Task) (tid : Nat) (newName : String) (newProject : Nat) :
    Except String (List Task) :=
  if ts.any (fun u => u.id != tid && u.name == newName && u.project == newProject) then
    .error "E11000 duplicate key error"
  else .ok (ts.map (fun u => if u.id == tid then { u with name := newName, project := newProject } else u))

/-- Per-project task-name uniqueness: all stored (name, project) pairs are
pairwise distinct. -/
def namesUniquePerProject (ts : List Task) : Prop :=
  (ts.map taskKey).Nodup

instance (ts : List Task) : Decidable (namesUniquePerProject ts) :=
  inferInstanceAs (Decidable ((ts.map taskKey).Nodup))

/-- `(findTask w tid).map Task.completedAt` — the stored completion
timestamp of the task with id `tid`. -/
def storedCompletedAt (w : World) (tid : Nat) : Option (Option Nat) :=
  (findTask w tid).map Task.completedAt

/-- Every stored epic has no parent (the claim-C2 invariant). -/
def epicsHaveNoParent (w : World) : Prop :=
  ∀ u ∈ w.tasks, u.type = "epic" → u.parentTask = none

instance (w : World) : Decidable (epicsHaveNoParent w) :=
  inferInstanceAs (Decidable (∀ u ∈ w.tasks, u.type = "epic" → u.parentTask = none))

/-! Concrete stores used by the counterexamples and witnesses.  All of
them use the default board-column set that project.ts installs when none
is supplied: To Do, In Progress, In Review, Done. -/

/-- The default 4-column board (project.ts pre-save hook). -/
def defaultCols : List BoardColumn :=
  [⟨1, "To Do", 0⟩, ⟨2, "In Progress", 1⟩, ⟨3, "In Review", 2⟩, ⟨4, "Done", 3⟩]

/-- A stored task of type `task`, project 1, status `Done`, no sprint. -/
def tDone : Task :=
  { id := 10, name := "t10", description := "d", priority := "medium", type := "task"
    status := "Done", project := 1, sprint := none, assignee := 5, storyPoints := 2
    completedAt := none, parentTask := none }

/-- Store for C1: one project, one empty sprint of that project, and
`tDone` stored with status `Done`. -/
def wC1 : World :=
  { projects := [{ id := 1, boardColumns := defaultCols, startDate := 0, endDate := 100 }]
    sprints := [{ id := 1, project := 1, startDate := 0, endDate := 10, status := "active"
                  tasks := [], completedTasks := 0, totalTasks := 0 }]
    tasks := [tDone]
    users := [5]
    activities := [] }

/-- Store for C2/C3: one project with the default columns, a stored
`task`-typed task (id 10, a valid epic parent candidate is NOT needed —
id 10 is typed `task`), and a stored epic (id 20) with no parent. -/
def wEpic : World :=
  { projects := [{ id := 1, boardColumns := defaultCols, startDate := 0, endDate := 100 }]
    sprints := []
    tasks :=
      [{ id := 10, name := "t10", description := "d", priority := "medium", type := "task"
         status := "To Do", project := 1, sprint := none, assignee := 5, storyPoints := 2
         completedAt := none, parentTask := none },
       { id := 20, name := "e20", description := "d", priority := "medium", type := "epic"
         status := "To Do", project := 1, sprint := none, assignee := 5, storyPoints := 3
         completedAt := none, parentTask := none }]
    users := [5]
    activities := [] }

/-- A creation request: an epic supplied with a non-null parent. -/
def reqEpicWithParent : CreateTaskReq :=
  { name := some "E1", description := some "d", type := some "epic", status := some "To Do"
    priority := none, storyPoints := none, assignee := some 5, parentTask := some 10
    project := some 1 }

/-- Store for C6: one sprint whose task set holds task 10; task 10 is
stored and childless. -/
def wC6 : World :=
  { projects := [{ id := 1, boardColumns := defaultCols, startDate := 0, endDate := 100 }]
    sprints := [{ id := 1, project := 1, startDate := 0, endDate := 10, status := "active"
                  tasks := [10], completedTasks := 1, totalTasks := 1 }]
    tasks := [{ tDone with sprint := some 1, completedAt := some 3 }]
    users := [5]
    activities := [] }

/-- Store for C7: a project running from day 10 to day 11, one `Done`
task worth 5 points whose completion date (day 9) precedes the project
start. -/
def wC7 : World :=
  { projects := [{ id := 1, boardColumns := defaultCols, startDate := 10, endDate := 11 }]
    sprints := []
    tasks := [{ id := 10, name := "t10", description := "d", priority := "medium"
                type := "bug", status := "Done", project := 1, sprint := none, assignee := 5
                storyPoints := 5, completedAt := some 9, parentTask := none }]
    users := [5]
    activities := [] }

/-- Store for C5 and other cross-project witnesses: two projects, a task
in project 1 and a sprint in project 2. -/
def wCross : World :=
  { projects :=
      [{ id := 1, boardColumns := defaultCols, startDate := 0, endDate := 100 },
       { id := 2, boardColumns := defaultCols, startDate := 0, endDate := 100 }]
    sprints := [{ id := 7, project := 2, startDate := 0, endDate := 10, status := "planning"
                  tasks := [], completedTasks := 0, totalTasks := 0 }]
    tasks := [tDone]
    users := [5]
    activities := [] }

/-! Helper lemmas about the hook pipeline. -/

/-- The story-point hook touches nothing but `storyPoints`. -/
theorem applyStoryPointsHook_fields (t : Task) :
    (applyStoryPointsHook t).id = t.id ∧ (applyStoryPointsHook t).type = t.type ∧
    (applyStoryPointsHook t).status = t.status ∧ (applyStoryPointsHook t).sprint = t.sprint ∧
    (applyStoryPointsHook t).completedAt = t.completedAt ∧
    (applyStoryPointsHook t).parentTask = t.parentTask := by
  unfold applyStoryPointsHook
  split <;> simp

/-- A successful hierarchy hook returns exactly the epic-normalized
document. -/
theorem hierarchyHook_ok_eq (w : World) (t t' : Task)
    (h : hierarchyHook w t = .ok t') :
    t' = epicNormalize t := by
  unfold hierarchyHook at h
  generalize epicNormalize t = t1 at h ⊢
  simp only [] at h
  repeat' split at h
  all_goals first
    | (exact Except.noConfusion h)
    | (injection h with h; exact h.symm)

/-- The epic normalization touches nothing but `parentTask`. -/
theorem epicNormalize_fields (t : Task) :
    (epicNormalize t).id = t.id ∧ (epicNormalize t).type = t.type ∧
    (epicNormalize t).status = t.status ∧ (epicNormalize t).completedAt = t.completedAt := by
  unfold epicNormalize
  split <;> simp

/-- An epic-normalized epic has no parent. -/
theorem epicNormalize_epic (t : Task) (he : (epicNormalize t).type = "epic") :
    (epicNormalize t).parentTask = none := by
  unfold epicNormalize at he ⊢
  by_cases hb : (t.type == "epic" && t.parentTask.isSome) = true
  · rw [if_pos hb]
  · rw [if_neg hb] at he ⊢
    cases hp : t.parentTask with
    | none => rfl
    | some p => exact absurd (by simp [he, hp]) hb

/-- The sprint-stats hook writes sprint counters only; the task store is
untouched. -/
theorem sprintStatsHook_tasks (w : World) (t : Task) (ms msp : Bool) (now : Nat) :
    (sprintStatsHook w t ms msp now).1.tasks = w.tasks := by
  unfold sprintStatsHook
  cases hs : t.sprint with
  | none => rfl
  | some sid =>
    dsimp only
    by_cases hm : (ms || msp) = true
    · rw [if_pos hm]
      cases hf : findSprint w sid with
      | none => rfl
      | some sp => rfl
    · rw [if_neg hm]

/-- The sprint-clear hook pulls from sprint task sets only; the task
store is untouched. -/
theorem sprintClearHook_tasks (w : World) (t : Task) (msp : Bool) :
    (sprintClearHook w t msp).tasks = w.tasks := by
  unfold sprintClearHook pullTaskFromAllSprints
  split <;> simp

/-- When the saved document has no sprint reference, hook 3 does
nothing. -/
theorem sprintStatsHook_no_sprint (w : World) (t : Task) (ms msp : Bool) (now : Nat)
    (h : t.sprint = none) : sprintStatsHook w t ms msp now = (w, t) := by
  unfold sprintStatsHook
  rw [h]

/-- When the saved document references an existing sprint and its status
was modified, hook 3 maintains `completedAt`: set to `now` on a terminal
status when unset, cleared on a non-terminal status. -/
theorem sprintStatsHook_completedAt (w : World) (t : Task) (msp : Bool) (now : Nat)
    (sid : Nat) (hs : t.sprint = some sid) (hsp : (findSprint w sid).isSome) :
    (sprintStatsHook w t true msp now).2.completedAt
      = (if isDoneStatus t.status then
          (if t.completedAt = none then some now else t.completedAt)
         else none) := by
  unfold sprintStatsHook
  rw [hs]
  dsimp only
  obtain ⟨sp, hspEq⟩ := Option.isSome_iff_exists.mp hsp
  rw [hspEq]
  simp only [Bool.true_or, if_true]
  by_cases hd : isDoneStatus t.status = true
  · cases hc : t.completedAt with
    | none => simp [hd, hc]
    | some c => simp [hd, hc]
  · rw [Bool.not_eq_true] at hd
    cases hc : t.completedAt with
    | none => simp [hd, hc]
    | some c => simp [hd, hc]

/-- Hook 3 never changes the saved document's id. -/
theorem sprintStatsHook_id (w : World) (t : Task) (ms msp : Bool) (now : Nat) :
    (sprintStatsHook w t ms msp now).2.id = t.id := by
  unfold sprintStatsHook
  cases hs : t.sprint with
  | none => rfl
  | some sid =>
    dsimp only
    by_cases hm : (ms || msp) = true
    · rw [if_pos hm]
      cases hf : findSprint w sid with
      | none => rfl
      | some sp =>
        dsimp only
        repeat' split
        all_goals rfl
    · rw [if_neg hm]

/-- Decomposition of a successful `task.save()`: some document `t3`
passed the hierarchy hook and was persisted over the store produced by
the earlier hooks. -/
theorem saveTask_ok_decomp (w : World) (t : Task) (isNew ms msp : Bool) (now : Nat)
    (w' : World) (h : saveTask w t isNew ms msp now = (w', none)) :
    ∃ t3,
      hierarchyHook (sprintStatsHook w (applyStoryPointsHook t) ms msp now).1
          (sprintStatsHook w (applyStoryPointsHook t) ms msp now).2 = .ok t3 ∧
      w' = persistTask
          (sprintClearHook (sprintStatsHook w (applyStoryPointsHook t) ms msp now).1 t3 msp)
          t3 isNew := by
  unfold saveTask at h
  simp only [] at h
  cases hsv : statusValidHook w (applyStoryPointsHook t) isNew ms with
  | some e =>
    rw [hsv] at h
    exact absurd (congrArg Prod.snd h) (by simp)
  | none =>
    rw [hsv] at h
    cases hh : hierarchyHook (sprintStatsHook w (applyStoryPointsHook t) ms msp now).1
        (sprintStatsHook w (applyStoryPointsHook t) ms msp now).2 with
    | error e =>
      rw [hh] at h
      exact absurd (congrArg Prod.snd h) (by simp)
    | ok t3 =>
      rw [hh] at h
      exact ⟨t3, rfl, (congrArg Prod.fst h).symm⟩

/-- Replacing every task of a given id in a store that holds one makes
`find?` on that id return the replacement. -/
theorem find?_map_replace (l : List Task) (t : Task) (tid : Nat) (hid : t.id = tid)
    (h : (l.find? (fun u => u.id == tid)).isSome) :
    ((l.map (fun u => if u.id == tid then t else u)).find? (fun u => u.id == tid)) = some t := by
  induction l with
  | nil => simp at h
  | cons c l ih =>
    by_cases hc : (c.id == tid) = true
    · simp only [List.map_cons, hc, if_true]
      rw [List.find?_cons_of_pos _ (by simp [hid])]
    · simp only [List.map_cons, hc, if_false]
      rw [List.find?_cons_of_neg _ (by simp_all)]
      rw [List.find?_cons_of_neg _ (by simp_all)] at h
      exact ih h

/-! The claim theorems. -/

/-- Claim C1 — the sprint counter invariant (`completedTasks ≤
totalTasks` and `totalTasks = |tasks|` after every membership or
status-affecting operation) is violated by the code: `moveToSprint` adds
the task to the sprint's set with a direct `$addToSet` write that skips
the sprint's count-recomputation hook, and the task save hook then
writes `completedTasks` alone.  Starting from an empty sprint and a
stored `Done` task, one `moveToSprint` call succeeds and leaves the
sprint with `completedTasks = 1 > totalTasks = 0` while `|tasks| = 1`;
plain `addTasksToSprint` likewise leaves `totalTasks = 0 ≠ |tasks| =
1`. -/
theorem c1_sprint_counter_invariant_violated :
    (moveToSprint wC1 10 (some 1) 50).2 = none ∧
    (findSprint (moveToSprint wC1 10 (some 1) 50).1 1).map
        (fun s => (s.completedTasks, s.totalTasks, s.tasks.length)) = some (1, 0, 1) ∧
    (addTasksToSprint wC1 1 [10]).2 = none ∧
    (findSprint (addTasksToSprint wC1 1 [10]).1 1).map
        (fun s => (s.totalTasks, s.tasks.length)) = some (0, 1) := by
  decide

/-- Claim C3 — the claim that updating a task to a status that matches no
board column is rejected with an UnknownStatus error fails on the code:
`updateTask` writes with `findByIdAndUpdate`, which does not run the
schema's pre-save status check, so updating a `To Do` task of a project
with the default four columns to the non-column status `Blocked`
succeeds and stores `Blocked`. -/
theorem c3_update_unknown_status_accepted :
    (updateTaskCtrl wEpic 10 { status := some "Blocked", parentTask := none } none 0 .ok).2
      = none ∧
    (findTask (updateTaskCtrl wEpic 10 { status := some "Blocked", parentTask := none }
        none 0 .ok).1 10).map Task.status = some "Blocked" := by
  decide

/-- Claim C6 — "deleting a childless task removes its id from the tasks
set of every sprint that contained it" fails on the code: the controller
deletes with `Task.findByIdAndDelete`, which does not fire the
`pre('deleteOne', { document: true })` sprint-pull hook, so the deletion
succeeds and the task document disappears while sprint 1 still lists the
id; the document-deletion path the hook was written for would have
pulled it. -/
theorem c6_delete_leaves_sprint_reference :
    (deleteTask wC6 10 5 .ok 0).2 = none ∧
    ((deleteTask wC6 10 5 .ok 0).1.tasks.any (fun t => t.id == 10)) = false ∧
    (findSprint (deleteTask wC6 10 5 .ok 0).1 1).map Sprint.tasks = some [10] ∧
    (findSprint (taskDocDeleteOne wC6 10) 1).map Sprint.tasks = some [] := by
  decide

/-- Claim C5 — when the task and the sprint belong to different projects,
`moveToSprint` fails with the cross-project error before any write: the
whole store (the task, its sprint reference, and every sprint's task
set) is returned unmodified. -/
theorem c5_moveToSprint_cross_project_rejected (w : World) (tid sid now : Nat)
    (task : Task) (sprint : Sprint)
    (ht : findTask w tid = some task) (hs : findSprint w sid = some sprint)
    (hp : task.project ≠ sprint.project) :
    moveToSprint w tid (some sid) now
      = (w, some "Task and sprint must belong to the same project") := by
  unfold moveToSprint
  rw [ht]
  dsimp only
  rw [hs]
  dsimp only
  rw [if_pos (by simpa using hp)]

/-- Witness for C5 at a concrete store: task 10 lives in project 1,
sprint 7 in project 2. -/
theorem c5_moveToSprint_cross_project_rejected_witness :
    moveToSprint wCross 10 (some 7) 0
      = (wCross, some "Task and sprint must belong to the same project") :=
  c5_moveToSprint_cross_project_rejected wCross 10 7 0 tDone
    { id := 7, project := 2, startDate := 0, endDate := 10, status := "planning"
      tasks := [], completedTasks := 0, totalTasks := 0 }
    (by decide) (by decide) (by decide)

/-- Claim C2 — the claim that an epic supplied with a non-null parent is
normalized rather than rejected, on both create and update, fails on the
code: `createTask` rejects such a request with "Epics cannot have parent
tasks", and `updateTask` (a direct store update that bypasses the
normalizing save hook) succeeds and leaves the stored epic with a
non-null parent. -/
theorem c2_epic_parent_claim_false :
    createTask wEpic reqEpicWithParent 99 60
      = (wEpic, some "Epics cannot have parent tasks") ∧
    (updateTaskCtrl wEpic 20 { status := none, parentTask := some (some 10) } none 0 .ok).2
      = none ∧
    (findTask (updateTaskCtrl wEpic 20 { status := none, parentTask := some (some 10) }
        none 0 .ok).1 20).map (fun t => (t.type, t.parentTask))
      = some ("epic", some 10) := by
  decide

/-- Claim C2, amended — on creation an epic supplied with a non-null
parent is rejected (the store is returned unchanged, with an error);
the force-clear normalization lives in the model's save hook, so a
successful `task.save()` preserves the invariant that every stored epic
has no parent.  (Direct updates bypass the hook; see the
counterexample.) -/
theorem c2_epic_parent_policy_amended :
    (∀ (w : World) (req : CreateTaskReq) (newId now pid : Nat),
      req.type = some "epic" → req.parentTask = some pid →
      (createTask w req newId now).1 = w ∧ (createTask w req newId now).2 ≠ none) ∧
    (∀ (w : World) (t : Task) (isNew ms msp : Bool) (now : Nat) (w' : World),
      epicsHaveNoParent w → saveTask w t isNew ms msp now = (w', none) →
      epicsHaveNoParent w') := by
  constructor
  · intro w req newId now pid hty hpt
    unfold createTask
    cases hn : req.name with
    | none => exact ⟨rfl, by simp⟩
    | some nm =>
    cases hd : req.description with
    | none => exact ⟨rfl, by simp⟩
    | some descr =>
    cases hpj : req.project with
    | none => exact ⟨rfl, by simp⟩
    | some projectId =>
    cases ha : req.assignee with
    | none => exact ⟨rfl, by simp⟩
    | some assignee =>
    dsimp only
    cases hfp : findProject w projectId with
    | none => exact ⟨rfl, by simp⟩
    | some projectDoc =>
    dsimp only
    by_cases hu : (!(w.users.contains assignee)) = true
    · rw [if_pos hu]
      exact ⟨rfl, by simp⟩
    · rw [if_neg hu]
      rw [hpt]
      dsimp only
      cases hft : findTask w pid with
      | none => exact ⟨rfl, by simp⟩
      | some parentTaskDoc =>
      dsimp only
      rw [hty]
      have h1 : ((some "epic" : Option String) == some "subtask") = false := by decide
      have h2 : ((some "epic" : Option String) == some "task") = false := by decide
      have h3 : ((some "epic" : Option String) == some "story") = false := by decide
      have h4 : ((some "epic" : Option String) == some "epic") = true := by decide
      simp only [h1, h2, h3, h4, Bool.false_and, Bool.false_or, Bool.or_false, if_false,
        if_true, Bool.false_eq_true]
      refine ⟨?_, ?_⟩ <;> simp
  · intro w t isNew ms msp now w' hinv hsave
    obtain ⟨t3, hh, hw⟩ := saveTask_ok_decomp w t isNew ms msp now w' hsave
    have hbase :
        (sprintClearHook (sprintStatsHook w (applyStoryPointsHook t) ms msp now).1 t3 msp).tasks
          = w.tasks := by
      rw [sprintClearHook_tasks, sprintStatsHook_tasks]
    have ht3 : t3.type = "epic" → t3.parentTask = none := by
      have heq := hierarchyHook_ok_eq _ _ _ hh
      intro h'
      rw [heq] at h' ⊢
      exact epicNormalize_epic _ h'
    intro u hu he
    rw [hw] at hu
    unfold persistTask at hu
    by_cases hnw : isNew = true
    · rw [hnw, if_pos rfl] at hu
      dsimp only at hu
      rw [hbase] at hu
      rcases List.mem_append.mp hu with h | h
      · exact hinv u h he
      · have : u = t3 := by simpa using h
        subst this
        exact ht3 he
    · rw [if_neg hnw] at hu
      dsimp only at hu
      rw [hbase] at hu
      obtain ⟨v, hv, hfv⟩ := List.mem_map.mp hu
      by_cases hvid : (v.id == t3.id) = true
      · rw [if_pos hvid] at hfv
        subst hfv
        exact ht3 he
      · rw [if_neg hvid] at hfv
        subst hfv
        exact hinv v hv he

/-- Witness for the amended C2: the concrete epic-with-parent request is
rejected with the store unchanged, and a concrete successful save
preserves the no-parent-epics invariant. -/
theorem c2_epic_parent_policy_amended_witness :
    ((createTask wEpic reqEpicWithParent 99 60).1 = wEpic ∧
     (createTask wEpic reqEpicWithParent 99 60).2 ≠ none) ∧
    epicsHaveNoParent (saveTask wEpic tDone false true false 7).1 := by
  constructor
  · exact c2_epic_parent_policy_amended.1 wEpic reqEpicWithParent 99 60 10 rfl rfl
  · exact c2_epic_parent_policy_amended.2 wEpic tDone false true false 7
      (saveTask wEpic tDone false true false 7).1 (by decide) rfl

/-- The saved task of C4's witness: the stored C6 task saved again. -/
def tC4 : Task :=
  { tDone with sprint := some 1, completedAt := some 3 }

/-- Claim C4 — "completedAt bookkeeping happens on every status
transition, regardless of whether the task is assigned to a sprint"
fails on the code: the bookkeeping sits inside the sprint-stats hook,
which is guarded by `this.sprint`.  A sprint-less task saved with a
status transition into `Done` keeps `completedAt` unset even though the
save succeeds. -/
theorem c4_completedAt_claim_false :
    (saveTask wC1 tDone false true false 77).2 = none ∧
    isDoneStatus tDone.status = true ∧ tDone.sprint = none ∧ tDone.completedAt = none ∧
    storedCompletedAt (saveTask wC1 tDone false true false 77).1 10 = some none := by
  decide

/-- Claim C4, amended — on a task save with a modified status,
`completedAt` bookkeeping happens exactly when the task references a
sprint that exists: the timestamp is set to `now` on a terminal status
when unset, kept when already set, and cleared on a non-terminal status;
a task without a sprint reference keeps its `completedAt` untouched. -/
theorem c4_completedAt_bookkeeping_amended (w : World) (t : Task) (msp : Bool)
    (now : Nat) (w' : World) (hex : (findTask w t.id).isSome)
    (hsave : saveTask w t false true msp now = (w', none)) :
    ((∃ sid, t.sprint = some sid ∧ (findSprint w sid).isSome) →
      storedCompletedAt w' t.id
        = some (if isDoneStatus t.status then
            (if t.completedAt = none then some now else t.completedAt)
          else none)) ∧
    (t.sprint = none → storedCompletedAt w' t.id = some t.completedAt) := by
  obtain ⟨t3, hh, hw⟩ := saveTask_ok_decomp w t false true msp now w' hsave
  have ht1f := applyStoryPointsHook_fields t
  have heq := hierarchyHook_ok_eq _ _ _ hh
  have hnf := epicNormalize_fields (sprintStatsHook w (applyStoryPointsHook t) true msp now).2
  have ht3id : t3.id = t.id := by
    rw [heq, hnf.1, sprintStatsHook_id, ht1f.1]
  have ht3c : t3.completedAt
      = (sprintStatsHook w (applyStoryPointsHook t) true msp now).2.completedAt := by
    rw [heq]
    exact hnf.2.2.2
  have hw'tasks : w'.tasks = w.tasks.map (fun u => if u.id == t.id then t3 else u) := by
    rw [hw]
    unfold persistTask
    rw [if_neg (by simp)]
    dsimp only
    rw [sprintClearHook_tasks, sprintStatsHook_tasks]
    simp only [ht3id]
  have hfind : findTask w' t.id = some t3 := by
    unfold findTask
    rw [hw'tasks]
    exact find?_map_replace w.tasks t3 t.id ht3id (by unfold findTask at hex; exact hex)
  have hstored : storedCompletedAt w' t.id = some t3.completedAt := by
    unfold storedCompletedAt
    rw [hfind]
    rfl
  constructor
  · rintro ⟨sid, hsid, hsp⟩
    rw [hstored, ht3c,
      sprintStatsHook_completedAt w (applyStoryPointsHook t) msp now sid
        (by rw [ht1f.2.2.2.1]; exact hsid) hsp,
      ht1f.2.2.1, ht1f.2.2.2.2.1]
  · intro hnone
    rw [hstored, ht3c,
      sprintStatsHook_no_sprint w (applyStoryPointsHook t) true msp now
        (by rw [ht1f.2.2.2.1]; exact hnone)]
    rw [ht1f.2.2.2.2.1]

/-- Witness for the amended C4: re-saving the completed C6 task (sprint 1
exists, status `Done`, `completedAt = some 3`) keeps the timestamp. -/
theorem c4_completedAt_bookkeeping_amended_witness :
    storedCompletedAt (saveTask wC6 tC4 false true false 99).1 10 = some (some 3) := by
  have h := c4_completedAt_bookkeeping_amended wC6 tC4 false 99
    (saveTask wC6 tC4 false true false 99).1 (by decide) rfl
  exact h.1 ⟨1, rfl, by decide⟩

/-- Closed form of the burndown loop: the `k`-th entry carries the day
`d + k` and the running total minus everything completed on the days
`d .. d + k`. -/
theorem burndownGo_eq (pts : Nat → Int) :
    ∀ (n d : Nat) (r : Int),
      burndownGo n d r pts = (List.range n).map
        (fun k => (d + k, r - ∑ j in Finset.range (k + 1), pts (d + j))) := by
  intro n
  induction n with
  | zero => intro d r; rfl
  | succ n ih =>
    intro d r
    rw [burndownGo, List.range_succ_eq_map, List.map_cons, List.map_map]
    refine congrArg₂ List.cons ?_ ?_
    · simp [Finset.sum_range_one]
    · rw [ih (d + 1) (r - pts d)]
      refine List.map_congr_left ?_
      intro k _
      refine Prod.ext ?_ ?_
      · simp only [Function.comp_apply]
        omega
      · simp only [Function.comp_apply, Nat.succ_eq_add_one]
        have hstep : ∑ j in Finset.range (k + 1 + 1), pts (d + j)
            = (∑ j in Finset.range (k + 1), pts (d + 1 + j)) + pts d := by
          rw [Finset.sum_range_succ']
          have h1 : ∀ i ∈ Finset.range (k + 1), pts (d + (i + 1)) = pts (d + 1 + i) := by
            intro i _
            congr 1
            omega
          rw [Finset.sum_congr rfl h1]
          have h0 : d + 0 = d := by omega
          rw [h0]
        rw [hstep]
        ring

/-- Claim C7 — "remainingPoints at each day equals total project story
points minus points of tasks completed on or before that day" fails on
the code: points completed before the project's start date are never
subtracted.  In the C7 store (total 5 points, the single task completed
on day 9, project running days 10–11) the code emits remaining 5 on both
days while the claim's formula gives 0. -/
theorem c7_burndown_claim_false :
    getBurndownData wC7 1 = .ok (5, [(10, 5), (11, 5)]) ∧
    claimRemainingAt wC7 1 5 10 = 0 ∧ claimRemainingAt wC7 1 5 11 = 0 ∧
    (5 : Int) ≠ 0 :=
  ⟨rfl, by decide, by decide, by decide⟩

/-- Claim C7, amended — the burndown series has exactly one entry per day
of the inclusive range from the project's start date to its end date
(its length is the inclusive day count), and the entry for day
`start + k` carries the total story points minus the points of tasks
completed within the window `start .. start + k`; the value is the bare
difference, never clamped at 0 — but completions recorded outside the
window (in particular before the start date) are not subtracted. -/
theorem c7_burndown_series_amended (w : World) (pid : Nat) (proj : Project)
    (total : Int) (series : List (Nat × Int))
    (hp : findProject w pid = some proj)
    (h : getBurndownData w pid = .ok (total, series)) :
    series.length = proj.endDate + 1 - proj.startDate ∧
    series = (List.range (proj.endDate + 1 - proj.startDate)).map
      (fun k => (proj.startDate + k,
        total - ∑ j in Finset.range (k + 1), donePointsOn w pid (proj.startDate + j))) := by
  unfold getBurndownData at h
  rw [hp] at h
  dsimp only at h
  injection h with h
  rw [Prod.ext_iff] at h
  obtain ⟨htot, hser⟩ := h
  dsimp only at htot hser
  subst htot
  unfold burndownLoop at hser
  rw [burndownGo_eq] at hser
  constructor
  · rw [← hser]
    simp
  · exact hser.symm

/-- Witness for the amended C7 at the C7 store. -/
theorem c7_burndown_series_amended_witness :
    ([((10 : Nat), (5 : Int)), (11, 5)].length = 11 + 1 - 10) ∧
    [((10 : Nat), (5 : Int)), (11, 5)] = (List.range (11 + 1 - 10)).map
      (fun k => (10 + k, 5 - ∑ j in Finset.range (k + 1), donePointsOn wC7 1 (10 + j))) :=
  c7_burndown_series_amended wC7 1
    { id := 1, boardColumns := defaultCols, startDate := 10, endDate := 11 }
    5 [(10, 5), (11, 5)] rfl rfl

/-! Lemmas about `removeBoardColumn`. -/

/-- When no column matches, the filter keeps everything. -/
theorem filter_ne_of_no_match (l : List BoardColumn) (cid : Nat)
    (h : ∀ c ∈ l, c.id ≠ cid) : l.filter (fun c => c.id != cid) = l := by
  rw [List.filter_eq_self]
  intro c hc
  simpa using h c hc

/-- When no column matches, `findIndex` finds nothing. -/
theorem findColumnIndex_eq_none (cols : List BoardColumn) (cid : Nat)
    (h : ∀ c ∈ cols, c.id ≠ cid) : findColumnIndex cols cid = none := by
  induction cols with
  | nil => rfl
  | cons c rest ih =>
    unfold findColumnIndex
    rw [if_neg (by simpa using h c (List.mem_cons_self c rest))]
    rw [ih (fun x hx => h x (List.mem_cons_of_mem c hx))]
    rfl

/-- When some column matches, `findIndex` finds an index. -/
theorem findColumnIndex_isSome (cols : List BoardColumn) (cid : Nat) (c0 : BoardColumn)
    (hm : c0 ∈ cols) (hc : c0.id = cid) : (findColumnIndex cols cid).isSome := by
  induction cols with
  | nil => simp at hm
  | cons c rest ih =>
    unfold findColumnIndex
    by_cases hcc : (c.id == cid) = true
    · rw [if_pos hcc]; rfl
    · rw [if_neg hcc]
      rcases List.mem_cons.mp hm with h | h
      · exact absurd (by simp [← h, hc]) hcc
      · have := ih h
        cases hr : findColumnIndex rest cid with
        | none => rw [hr] at this; simp at this
        | some j => rfl

/-- Splicing out the first matching index is, under unique column ids,
the same as filtering the id out. -/
theorem eraseIdx_eq_filter_of_nodup (cols : List BoardColumn) :
    ∀ (cid i : Nat), (cols.map BoardColumn.id).Nodup →
      findColumnIndex cols cid = some i →
      cols.eraseIdx i = cols.filter (fun c => c.id != cid) := by
  induction cols with
  | nil => intro cid i _ h; exact Option.noConfusion h
  | cons c rest ih =>
    intro cid i hnd h
    unfold findColumnIndex at h
    rw [List.map_cons, List.nodup_cons] at hnd
    by_cases hc : (c.id == cid) = true
    · rw [if_pos hc] at h
      injection h with h
      subst h
      rw [List.eraseIdx_cons_zero, List.filter_cons,
        if_neg (by simpa using (beq_iff_eq.mp hc))]
      refine (filter_ne_of_no_match rest cid ?_).symm
      intro x hx hxe
      apply hnd.1
      have hxc : x.id = c.id := by rw [hxe, beq_iff_eq.mp hc]
      rw [← hxc]
      exact List.mem_map_of_mem _ hx
    · rw [if_neg hc] at h
      cases hr : findColumnIndex rest cid with
      | none => rw [hr] at h; exact Option.noConfusion h
      | some j =>
        rw [hr] at h
        have hij : j + 1 = i := by simpa using h
        subst hij
        rw [List.eraseIdx_cons_succ, List.filter_cons, if_pos (by simpa using hc)]
        rw [ih cid j hnd.2 hr]

/-- The renumbering map keeps ids and names (hence the relative order of
the surviving columns). -/
theorem reindexColumns_idname (cols : List BoardColumn) :
    ∀ s : Nat, (reindexColumns cols s).map (fun c => (c.id, c.name))
      = cols.map (fun c => (c.id, c.name)) := by
  induction cols with
  | nil => intro s; rfl
  | cons c rest ih =>
    intro s
    unfold reindexColumns
    simp [ih (s + 1)]

/-- The renumbering map assigns the consecutive orders `s, s+1, ...`. -/
theorem reindexColumns_order (cols : List BoardColumn) :
    ∀ s : Nat, (reindexColumns cols s).map BoardColumn.order
      = List.range' s cols.length := by
  induction cols with
  | nil => intro s; rfl
  | cons c rest ih =>
    intro s
    unfold reindexColumns
    rw [List.map_cons, List.length_cons, List.range'_succ]
    rw [ih (s + 1)]

/-- Removing the one matching column (unique ids) drops the length by
one. -/
theorem filter_length_of_mem (cols : List BoardColumn) :
    ∀ (cid : Nat) (c0 : BoardColumn), (cols.map BoardColumn.id).Nodup →
      c0 ∈ cols → c0.id = cid →
      (cols.filter (fun c => c.id != cid)).length = cols.length - 1 := by
  induction cols with
  | nil => intro cid c0 _ hm; simp at hm
  | cons c rest ih =>
    intro cid c0 hnd hm hc
    rw [List.map_cons, List.nodup_cons] at hnd
    rw [List.filter_cons]
    by_cases hcc : (c.id == cid) = true
    · rw [if_neg (by simpa using (beq_iff_eq.mp hcc))]
      have hf : rest.filter (fun c => c.id != cid) = rest := by
        refine filter_ne_of_no_match rest cid ?_
        intro x hx hxe
        apply hnd.1
        have hxc : x.id = c.id := by rw [hxe, beq_iff_eq.mp hcc]
        rw [← hxc]
        exact List.mem_map_of_mem _ hx
      rw [hf]
      simp
    · rw [if_pos (by simpa using hcc)]
      rcases List.mem_cons.mp hm with h | h
      · exact absurd (by simp [← h, hc]) hcc
      · have hlen := ih cid c0 hnd.2 h hc
        have hpos : 0 < rest.length := List.length_pos_of_mem h
        simp only [List.length_cons, hlen]
        omega

/-- Claim C8 — `removeBoardColumn` fails with NotFound (and leaves the
column list as it is) when the id matches no column, and otherwise
removes exactly the matching column: the survivors keep their ids, names
and relative order, and their `order` fields are renumbered to the
contiguous sequence `0 .. n-2`. -/
theorem c8_removeBoardColumn_correct (cols : List BoardColumn) (cid : Nat)
    (hnd : (cols.map BoardColumn.id).Nodup) :
    ((∀ c ∈ cols, c.id ≠ cid) → removeBoardColumn cols cid = .error "Column not found") ∧
    (∀ c0 ∈ cols, c0.id = cid →
      removeBoardColumn cols cid
        = .ok (reindexColumns (cols.filter (fun c => c.id != cid)) 0) ∧
      (reindexColumns (cols.filter (fun c => c.id != cid)) 0).map (fun c => (c.id, c.name))
        = (cols.filter (fun c => c.id != cid)).map (fun c => (c.id, c.name)) ∧
      (reindexColumns (cols.filter (fun c => c.id != cid)) 0).map BoardColumn.order
        = List.range (cols.length - 1)) := by
  constructor
  · intro h
    unfold removeBoardColumn
    rw [findColumnIndex_eq_none cols cid h]
  · intro c0 hm hc
    have hsome := findColumnIndex_isSome cols cid c0 hm hc
    obtain ⟨i, hi⟩ := Option.isSome_iff_exists.mp hsome
    refine ⟨?_, reindexColumns_idname _ 0, ?_⟩
    · unfold removeBoardColumn
      rw [hi]
      dsimp only
      rw [eraseIdx_eq_filter_of_nodup cols cid i hnd hi]
    · rw [reindexColumns_order, filter_length_of_mem cols cid c0 hnd hm hc,
        List.range_eq_range']

/-- Witness for C8 on the default column set: removing column 2 keeps
columns 1, 3, 4 in order with orders 0, 1, 2, and removing the absent id
9 fails. -/
theorem c8_removeBoardColumn_correct_witness :
    removeBoardColumn defaultCols 9 = .error "Column not found" ∧
    (removeBoardColumn defaultCols 2
        = .ok (reindexColumns (defaultCols.filter (fun c => c.id != 2)) 0) ∧
      (reindexColumns (defaultCols.filter (fun c => c.id != 2)) 0).map (fun c => (c.id, c.name))
        = (defaultCols.filter (fun c => c.id != 2)).map (fun c => (c.id, c.name)) ∧
      (reindexColumns (defaultCols.filter (fun c => c.id != 2)) 0).map BoardColumn.order
        = List.range (defaultCols.length - 1)) := by
  constructor
  · exact (c8_removeBoardColumn_correct defaultCols 9 (by decide)).1 (by decide)
  · exact (c8_removeBoardColumn_correct defaultCols 2 (by decide)).2
      ⟨2, "In Progress", 1⟩ (by decide) rfl

/-- Claim C9 — `logActivity` reports failure by returning `false` rather
than raising (it is a total function into a boolean, and a failed write
leaves the activity store unchanged), a successful write returns `true`,
and the primary mutations proceed identically whether the logging write
succeeds or fails: a childless-task deletion still responds with success
and removes exactly the task, and an update produces the same task store
and the same response under either logging outcome. -/
theorem c9_logActivity_best_effort :
    (∀ (acts : List Activity) (entry : Activity),
      logActivity acts entry .failed = (acts, false)) ∧
    (∀ (acts : List Activity) (entry : Activity),
      (logActivity acts entry .ok).2 = true) ∧
    (∀ (w : World) (tid uid now : Nat) (task : Task),
      findTask w tid = some task →
      w.tasks.any (fun u => u.parentTask == some tid) = false →
      ∀ outcome, (deleteTask w tid uid outcome now).2 = none ∧
        (deleteTask w tid uid outcome now).1.tasks
          = w.tasks.filter (fun u => u.id != tid)) ∧
    (∀ (w : World) (tid : Nat) (patch : UpdatePatch) (userId : Option Nat) (now : Nat),
      (updateTaskCtrl w tid patch userId now .failed).1.tasks
        = (updateTaskCtrl w tid patch userId now .ok).1.tasks ∧
      (updateTaskCtrl w tid patch userId now .failed).2
        = (updateTaskCtrl w tid patch userId now .ok).2) := by
  refine ⟨fun acts entry => rfl, fun acts entry => rfl, ?_, ?_⟩
  · intro w tid uid now task hfind hchild outcome
    unfold deleteTask
    rw [hfind]
    dsimp only
    rw [hchild]
    rw [if_neg (by simp)]
    exact ⟨rfl, rfl⟩
  · intro w tid patch userId now
    unfold updateTaskCtrl
    cases hf : findTask w tid with
    | none => exact ⟨rfl, rfl⟩
    | some existingTask => exact ⟨rfl, rfl⟩

/-- A sample activity entry for the C9 witness. -/
def actSample : Activity :=
  { user := 5, action := "deleted", taskId := 10, project := 1, details := none
    fieldChanged := none, oldValue := none, newValue := none, timestamp := 0 }

/-- Witness for C9: a failed write returns `false` with the store
unchanged, and deleting task 10 with a failing logger still succeeds and
removes the task. -/
theorem c9_logActivity_best_effort_witness :
    logActivity [] actSample .failed = ([], false) ∧
    ((deleteTask wEpic 10 5 .failed 0).2 = none ∧
     (deleteTask wEpic 10 5 .failed 0).1.tasks
       = wEpic.tasks.filter (fun u => u.id != 10)) := by
  constructor
  · exact c9_logActivity_best_effort.1 [] actSample
  · exact c9_logActivity_best_effort.2.2.1 wEpic 10 5 0
      { id := 10, name := "t10", description := "d", priority := "medium", type := "task"
        status := "To Do", project := 1, sprint := none, assignee := 5, storyPoints := 2
        completedAt := none, parentTask := none }
      (by decide) (by decide) .failed

/-- Claim C10 — the unique compound (name, project) index: an insert or a
key-rewriting update whose new pair collides with another stored task
fails with a duplicate-key error, and any insert or update that succeeds
preserves pairwise distinctness of the stored (name, project) pairs. -/
theorem c10_unique_index_preserved :
    (∀ (ts : List Task) (t : Task) (ts' : List Task),
      namesUniquePerProject ts → insertTaskUnique ts t = .ok ts' →
      namesUniquePerProject ts') ∧
    (∀ (ts : List Task) (t : Task) (u : Task), u ∈ ts → taskKey u = taskKey t →
      insertTaskUnique ts t = .error "E11000 duplicate key error") ∧
    (∀ (ts : List Task) (tid : Nat) (nm : String) (pj : Nat) (ts' : List Task),
      (ts.map Task.id).Nodup → namesUniquePerProject ts →
      updateTaskKeyUnique ts tid nm pj = .ok ts' → namesUniquePerProject ts') ∧
    (∀ (ts : List Task) (tid : Nat) (nm : String) (pj : Nat) (u : Task),
      u ∈ ts → u.id ≠ tid → u.name = nm → u.project = pj →
      updateTaskKeyUnique ts tid nm pj = .error "E11000 duplicate key error") := by
  refine ⟨?_, ?_, ?_, ?_⟩
  · intro ts t ts' hnd hok
    unfold insertTaskUnique at hok
    cases hany : ts.any (fun u => u.name == t.name && u.project == t.project) with
    | true =>
      rw [hany] at hok
      simp at hok
    | false =>
      rw [hany] at hok
      simp only [Bool.false_eq_true, if_false, Except.ok.injEq] at hok
      subst hok
      unfold namesUniquePerProject at hnd ⊢
      rw [List.map_append, List.map_singleton, List.nodup_append]
      refine ⟨hnd, List.nodup_singleton _, ?_⟩
      intro k hk hk1
      rw [List.mem_singleton] at hk1
      subst hk1
      obtain ⟨v, hv, hkv⟩ := List.mem_map.mp hk
      have hvp := List.any_eq_false.mp hany v hv
      unfold taskKey at hkv
      rw [Prod.ext_iff] at hkv
      dsimp only at hkv
      exact hvp (by simp [hkv.1, hkv.2])
  · intro ts t u hu hk
    unfold insertTaskUnique
    rw [if_pos ?_]
    unfold taskKey at hk
    rw [Prod.ext_iff] at hk
    dsimp only at hk
    rw [List.any_eq_true]
    exact ⟨u, hu, by simp [hk.1, hk.2]⟩
  · intro ts tid nm pj ts' hids hkeys hok
    unfold updateTaskKeyUnique at hok
    cases hany : ts.any (fun u => u.id != tid && u.name == nm && u.project == pj) with
    | true =>
      rw [hany] at hok
      simp at hok
    | false =>
      rw [hany] at hok
      simp only [Bool.false_eq_true, if_false, Except.ok.injEq] at hok
      subst hok
      unfold namesUniquePerProject at hkeys ⊢
      rw [List.map_map]
      have hinj_id := List.inj_on_of_nodup_map hids
      have hinj_key := List.inj_on_of_nodup_map hkeys
      refine List.Nodup.map_on ?_ (List.Nodup.of_map _ hids)
      intro x hx y hy hxy
      simp only [Function.comp_apply] at hxy
      by_cases hxid : (x.id == tid) = true <;> by_cases hyid : (y.id == tid) = true
      · exact hinj_id hx hy (by rw [beq_iff_eq.mp hxid, beq_iff_eq.mp hyid])
      · exfalso
        rw [if_pos hxid, if_neg hyid] at hxy
        unfold taskKey at hxy
        rw [Prod.ext_iff] at hxy
        dsimp only at hxy
        have hvp := List.any_eq_false.mp hany y hy
        refine hvp ?_
        simp only [Bool.and_eq_true, bne_iff_ne, beq_iff_eq]
        refine ⟨⟨?_, hxy.1.symm⟩, hxy.2.symm⟩
        intro hcon
        exact hyid (by simp [hcon])
      · exfalso
        rw [if_neg hxid, if_pos hyid] at hxy
        unfold taskKey at hxy
        rw [Prod.ext_iff] at hxy
        dsimp only at hxy
        have hvp := List.any_eq_false.mp hany x hx
        refine hvp ?_
        simp only [Bool.and_eq_true, bne_iff_ne, beq_iff_eq]
        refine ⟨⟨?_, hxy.1⟩, hxy.2⟩
        intro hcon
        exact hxid (by simp [hcon])
      · rw [if_neg hxid, if_neg hyid] at hxy
        exact hinj_key hx hy hxy
  · intro ts tid nm pj u hu hne hn hp
    unfold updateTaskKeyUnique
    rw [if_pos ?_]
    rw [List.any_eq_true]
    exact ⟨u, hu, by simp [bne_iff_ne, hne, hn, hp]⟩

/-- Witness for C10: inserting a colliding task fails, a fresh insert
keeps the keys distinct, and likewise for updates. -/
theorem c10_unique_index_preserved_witness :
    namesUniquePerProject
      (wEpic.tasks ++ [{ tDone with id := 30, name := "fresh" }]) ∧
    insertTaskUnique wEpic.tasks { tDone with id := 30 }
      = .error "E11000 duplicate key error" ∧
    updateTaskKeyUnique wEpic.tasks 20 "t10" 1
      = .error "E11000 duplicate key error" := by
  refine ⟨?_, ?_, ?_⟩
  · have h := c10_unique_index_preserved.1 wEpic.tasks
      { tDone with id := 30, name := "fresh" }
      (wEpic.tasks ++ [{ tDone with id := 30, name := "fresh" }]) (by decide) (by rfl)
    exact h
  · exact c10_unique_index_preserved.2.1 wEpic.tasks { tDone with id := 30 }
      { id := 10, name := "t10", description := "d", priority := "medium", type := "task"
        status := "To Do", project := 1, sprint := none, assignee := 5, storyPoints := 2
        completedAt := none, parentTask := none }
      (by decide) (by decide)
  · exact c10_unique_index_preserved.2.2.2 wEpic.tasks 20 "t10" 1
      { id := 10, name := "t10", description := "d", priority := "medium", type := "task"
        status := "To Do", project := 1, sprint := none, assignee := 5, storyPoints := 2
        completedAt := none, parentTask := none }
      (by decide) (by decide) (by decide) (by decide)

end Backend
